import Mathlib

/-!
Verification of the pdf_ocr_backend repository against its specification.

The Lean definitions below are a shallow embedding of the Python sources:
  * `models/user.py`            — `User.can_process_pdf` and friends
  * `models/subscription.py`    — `SubscriptionPlan`, `UserSubscription`
  * `services/subscription_service.py` — `create_subscription`,
    `get_user_active_subscription`, `update_subscription_from_stripe`
  * `routes/payment_routes.py`  — `stripe_webhook`, `handle_subscription_updated`
  * `services/payment_service.py` — `construct_webhook_event`
  * `crud.py`                   — `create_pdf_version`, `get_pdf_by_session`
  * `utils/pdf_processor.py` and `app.py` — `apply_text_edits`, `apply_signatures`
  * `app.py`                    — the `POST /api/download` route
  * `auth.py`                   — `verify_password`, `get_password_hash`

The database is modelled as explicit lists of rows; ORM mutation becomes
functional row replacement.  Calls into external libraries (PyMuPDF, PIL,
the bcrypt core of passlib, Stripe, `json.loads`) are modelled as function
parameters; all logic written in the repository itself (control flow,
string slicing, colour parsing, status maps, per-item exception handling)
is embedded concretely.
-/

namespace PdfBackend

/-! ## Data model (`models/user.py`, `models/subscription.py`) -/

/-- Row of the `users` table (`models/user.py`).  Only the columns the claims
touch are carried; `pdfCountThisMonth` and `pdfLimit` are Python ints. -/
structure User where
  id : Nat
  currentPlan : String
  pdfCountThisMonth : Int
  pdfLimit : Int
  deriving DecidableEq, Repr

/-- `User.can_process_pdf` (`models/user.py`, lines 70–74). -/
def can_process_pdf (u : User) : Bool :=
  if u.currentPlan = "pro" then
    true
  else
    u.pdfCountThisMonth < u.pdfLimit

/-- `User.increment_pdf_count` (`models/user.py`). -/
def increment_pdf_count (u : User) : User :=
  { u with pdfCountThisMonth := u.pdfCountThisMonth + 1 }

/-- `User.reset_monthly_count` (`models/user.py`). -/
def reset_monthly_count (u : User) : User :=
  { u with pdfCountThisMonth := 0 }

/-- Row of `subscription_plans` (`models/subscription.py`). -/
structure SubscriptionPlan where
  id : Nat
  name : String
  pdfLimit : Int
  price : ℚ
  deriving DecidableEq, Repr

/-- Row of `user_subscriptions` (`models/subscription.py`).  Timestamps are
modelled as naturals (seconds). -/
structure UserSubscription where
  userId : Nat
  planId : Nat
  status : String
  stripeSubscriptionId : Option String
  stripeCustomerId : Option String
  startDate : Nat
  endDate : Option Nat
  currentPeriodStart : Nat
  currentPeriodEnd : Nat
  cancelAtPeriodEnd : Bool
  cancelledAt : Option Nat
  deriving DecidableEq, Repr

/-- The relational state touched by the subscription subsystem. -/
structure DBState where
  users : List User
  plans : List SubscriptionPlan
  subs : List UserSubscription
  deriving DecidableEq, Repr

/-! ## Subscription service (`services/subscription_service.py`) -/

/-- The predicate of the query in `get_user_active_subscription`
(`subscription_service.py`, lines 90–97). -/
def isActiveFor (u : Nat) (r : UserSubscription) : Bool :=
  r.userId == u && r.status == "active"

/-- `SubscriptionService.get_user_active_subscription`.  The query ends in
`scalar_one_or_none()`: one matching row is returned, zero yields `None`,
and more than one raises `MultipleResultsFound`, which the surrounding
`except` turns into `None` as well. -/
def get_user_active_subscription (subs : List UserSubscription) (u : Nat) :
    Option UserSubscription :=
  match subs.filter (isActiveFor u) with
  | [r] => some r
  | _ => none

/-- The three ORM assignments performed on a prior active row inside
`create_subscription` (lines 117–120). -/
def cancelRow (now : Nat) (r : UserSubscription) : UserSubscription :=
  { r with status := "cancelled", endDate := some now, cancelledAt := some now }

/-- `SubscriptionService.create_subscription` (lines 104–163): cancel the
prior active row if exactly one is found, insert a fresh `active` row with a
30-day period, and update the user's plan fields from the plan row. -/
def create_subscription (st : DBState) (now : Nat) (u planId : Nat)
    (ssid scid : Option String) : UserSubscription × DBState :=
  let subs1 :=
    match get_user_active_subscription st.subs u with
    | some _ => st.subs.map (fun r => if isActiveFor u r then cancelRow now r else r)
    | none => st.subs
  let newSub : UserSubscription :=
    { userId := u, planId := planId, status := "active",
      stripeSubscriptionId := ssid, stripeCustomerId := scid,
      startDate := now, endDate := none,
      currentPeriodStart := now, currentPeriodEnd := now + 30 * 24 * 60 * 60,
      cancelAtPeriodEnd := false, cancelledAt := none }
  let users1 :=
    match st.plans.find? (fun p => p.id == planId) with
    | some plan =>
        st.users.map (fun usr =>
          if usr.id == u then
            { usr with currentPlan := plan.name, pdfLimit := plan.pdfLimit,
                       pdfCountThisMonth := 0 }
          else usr)
    | none => st.users
  (newSub, { users := users1, plans := st.plans, subs := subs1 ++ [newSub] })

/-- `SubscriptionService.update_subscription_from_stripe` (lines 206–247):
look the row up by its Stripe subscription id (`scalar_one_or_none`, same
zero/one/many behaviour as above; on zero or an exception the state is left
unchanged), store the mapped status and period end, and downgrade the owning
user to the free plan on a terminal status. -/
def update_subscription_from_stripe (st : DBState) (ssid : String)
    (status : String) (periodEnd : Nat) : DBState :=
  match st.subs.filter (fun r => r.stripeSubscriptionId == some ssid) with
  | [sub] =>
      let subs1 := st.subs.map (fun r =>
        if r.stripeSubscriptionId == some ssid then
          { r with status := status, currentPeriodEnd := periodEnd }
        else r)
      let users1 :=
        if status == "cancelled" || status == "expired" || status == "unpaid" then
          st.users.map (fun usr =>
            if usr.id == sub.userId then
              { usr with currentPlan := "free", pdfLimit := 5 }
            else usr)
        else st.users
      { users := users1, plans := st.plans, subs := subs1 }
  | _ => st

/-! ## Webhook routes (`routes/payment_routes.py`) -/

/-- The `status_map` dictionary of `handle_subscription_updated`
(`payment_routes.py`, lines 194–200); `dict.get` falls back to `'active'`. -/
def statusMap (s : String) : String :=
  if s == "active" then "active"
  else if s == "past_due" then "past_due"
  else if s == "canceled" then "cancelled"
  else if s == "unpaid" then "unpaid"
  else "active"

/-- `handle_subscription_updated` (`payment_routes.py`, lines 189–211). -/
def handle_subscription_updated (st : DBState) (ssid : String)
    (externalStatus : String) (periodEnd : Nat) : DBState :=
  update_subscription_from_stripe st ssid (statusMap externalStatus) periodEnd

/-! ## Theorems: usage gating and subscription lifecycle -/

lemma isActiveFor_cancelRow (u now : Nat) (r : UserSubscription) :
    isActiveFor u (cancelRow now r) = false := by
  simp [isActiveFor, cancelRow]

lemma filter_cancel_all (u now : Nat) (l : List UserSubscription) :
    (l.map (fun r => if isActiveFor u r then cancelRow now r else r)).filter
      (isActiveFor u) = [] := by
  induction l with
  | nil => simp
  | cons a t ih =>
      by_cases h : isActiveFor u a = true
      · simp [h, isActiveFor_cancelRow, ih]
      · simp only [Bool.not_eq_true] at h
        simp [h, ih]

/-- Claim C2: `User.can_process_pdf` returns true unconditionally when
`current_plan` is `"pro"` (regardless of the counter and the limit), and
otherwise returns true exactly when `pdf_count_this_month < pdf_limit`;
in particular a Free-plan user with limit 5 and count 5 gets `false`. -/
theorem can_process_pdf_spec (u : User) :
    (u.currentPlan = "pro" → can_process_pdf u = true)
    ∧ (u.currentPlan ≠ "pro" →
        (can_process_pdf u = true ↔ u.pdfCountThisMonth < u.pdfLimit))
    ∧ (u.currentPlan = "free" → u.pdfLimit = 5 → u.pdfCountThisMonth = 5 →
        can_process_pdf u = false) := by
  refine ⟨fun h => by simp [can_process_pdf, h], fun h => ?_, fun h h5 hc => ?_⟩
  · simp [can_process_pdf, h]
  · have hne : u.currentPlan ≠ "pro" := by simp [h]
    simp [can_process_pdf, hne, h5, hc]

/-- Witness for C2: a Pro user with a huge count is allowed; a Free user
with count 5 of limit 5 is refused. -/
theorem can_process_pdf_spec_witness :
    can_process_pdf ⟨1, "pro", 1000000, -1⟩ = true
    ∧ can_process_pdf ⟨2, "free", 5, 5⟩ = false := by
  refine ⟨(can_process_pdf_spec ⟨1, "pro", 1000000, -1⟩).1 rfl, ?_⟩
  exact (can_process_pdf_spec ⟨2, "free", 5, 5⟩).2.2 rfl rfl rfl

lemma create_subscription_fst (st : DBState) (now u planId : Nat)
    (ssid scid : Option String) :
    (create_subscription st now u planId ssid scid).1 =
      { userId := u, planId := planId, status := "active",
        stripeSubscriptionId := ssid, stripeCustomerId := scid,
        startDate := now, endDate := none,
        currentPeriodStart := now, currentPeriodEnd := now + 30 * 24 * 60 * 60,
        cancelAtPeriodEnd := false, cancelledAt := none } := rfl

lemma create_subscription_subs (st : DBState) (now u planId : Nat)
    (ssid scid : Option String) :
    (create_subscription st now u planId ssid scid).2.subs =
      (match get_user_active_subscription st.subs u with
       | some _ =>
           st.subs.map (fun r => if isActiveFor u r then cancelRow now r else r)
       | none => st.subs)
      ++ [(create_subscription st now u planId ssid scid).1] := rfl

lemma isActiveFor_new (st : DBState) (now u planId : Nat)
    (ssid scid : Option String) :
    isActiveFor u (create_subscription st now u planId ssid scid).1 = true := by
  rw [create_subscription_fst]
  simp [isActiveFor]

/-- Claim C1: `create_subscription` preserves the at-most-one-active-row
invariant.  If the user's rows hold at most one `active` row before the
call, then afterwards exactly one of the user's rows is `active`; any prior
active row is re-stored as `cancelled` with non-null `end_date` and
`cancelled_at`; and the freshly inserted row has status `active`. -/
theorem create_subscription_single_active (st : DBState) (now u planId : Nat)
    (ssid scid : Option String)
    (h : (st.subs.filter (isActiveFor u)).length ≤ 1) :
    ((create_subscription st now u planId ssid scid).2.subs.filter
        (isActiveFor u)).length = 1
    ∧ (∀ e ∈ st.subs, isActiveFor u e = true →
        cancelRow now e ∈ (create_subscription st now u planId ssid scid).2.subs
        ∧ (cancelRow now e).status = "cancelled"
        ∧ (cancelRow now e).endDate ≠ none
        ∧ (cancelRow now e).cancelledAt ≠ none)
    ∧ (create_subscription st now u planId ssid scid).1.status = "active" := by
  cases hf : st.subs.filter (isActiveFor u) with
  | nil =>
      have hg : get_user_active_subscription st.subs u = none := by
        simp [get_user_active_subscription, hf]
      refine ⟨?_, ?_, rfl⟩
      · rw [create_subscription_subs, hg, List.filter_append, hf]
        simp [isActiveFor_new]
      · intro e he hact
        have : e ∈ st.subs.filter (isActiveFor u) := List.mem_filter.mpr ⟨he, hact⟩
        rw [hf] at this
        exact absurd this (List.not_mem_nil e)
  | cons a t =>
      cases t with
      | cons b t2 => rw [hf] at h; simp at h
      | nil =>
          have hg : get_user_active_subscription st.subs u = some a := by
            simp [get_user_active_subscription, hf]
          have hmem : a ∈ st.subs := by
            have : a ∈ st.subs.filter (isActiveFor u) := by rw [hf]; simp
            exact List.mem_of_mem_filter this
          refine ⟨?_, ?_, rfl⟩
          · rw [create_subscription_subs, hg, List.filter_append,
              filter_cancel_all]
            simp [isActiveFor_new]
          · intro e he hact
            have hef : e ∈ st.subs.filter (isActiveFor u) :=
              List.mem_filter.mpr ⟨he, hact⟩
            rw [hf] at hef
            have hea : e = a := by simpa using hef
            subst hea
            refine ⟨?_, rfl, by simp [cancelRow], by simp [cancelRow]⟩
            rw [create_subscription_subs, hg]
            refine List.mem_append_left _ ?_
            have := List.mem_map_of_mem
              (fun r => if isActiveFor u r then cancelRow now r else r) hmem
            simpa [hact] using this

/-- Witness for C1: a user with one active Basic row subscribes to Pro; the
old row ends up cancelled with end/cancel stamps and exactly one row is
active afterwards. -/
theorem create_subscription_single_active_witness :
    (((create_subscription
        { users := [⟨7, "basic", 3, 50⟩],
          plans := [⟨2, "pro", -1, 29⟩],
          subs := [{ userId := 7, planId := 1, status := "active",
                     stripeSubscriptionId := some "sub_old",
                     stripeCustomerId := none, startDate := 0, endDate := none,
                     currentPeriodStart := 0, currentPeriodEnd := 100,
                     cancelAtPeriodEnd := false, cancelledAt := none }] }
        1000 7 2 (some "sub_new") none).2.subs.filter (isActiveFor 7)).length = 1) := by
  have h := create_subscription_single_active
    { users := [⟨7, "basic", 3, 50⟩],
      plans := [⟨2, "pro", -1, 29⟩],
      subs := [{ userId := 7, planId := 1, status := "active",
                 stripeSubscriptionId := some "sub_old",
                 stripeCustomerId := none, startDate := 0, endDate := none,
                 currentPeriodStart := 0, currentPeriodEnd := 100,
                 cancelAtPeriodEnd := false, cancelledAt := none }] }
    1000 7 2 (some "sub_new") none (by decide)
  exact h.1

/-- Claim C9: a `customer.subscription.updated` event whose external status
is none of `active`, `past_due`, `canceled`, `unpaid` is mapped to the local
status `"active"` by the status map's default, so the stored row becomes
`active` and the downgrade-to-free path (which would rewrite the user's plan
fields) is not taken. -/
theorem unrecognized_status_stored_active (st : DBState) (ssid s : String)
    (pe : Nat) (sub : UserSubscription)
    (h1 : s ≠ "active") (h2 : s ≠ "past_due") (h3 : s ≠ "canceled")
    (h4 : s ≠ "unpaid")
    (hf : st.subs.filter (fun r => r.stripeSubscriptionId == some ssid) = [sub]) :
    statusMap s = "active"
    ∧ (handle_subscription_updated st ssid s pe).users = st.users
    ∧ ∀ r ∈ (handle_subscription_updated st ssid s pe).subs,
        r.stripeSubscriptionId = some ssid → r.status = "active" := by
  have hs : statusMap s = "active" := by
    simp [statusMap, h1, h2, h3, h4]
  have key : update_subscription_from_stripe st ssid "active" pe =
      { users := st.users, plans := st.plans,
        subs := st.subs.map (fun r =>
          if r.stripeSubscriptionId == some ssid then
            { r with status := "active", currentPeriodEnd := pe }
          else r) } := by
    unfold update_subscription_from_stripe
    rw [hf]
    simp
  have hh : handle_subscription_updated st ssid s pe =
      update_subscription_from_stripe st ssid "active" pe := by
    unfold handle_subscription_updated
    rw [hs]
  refine ⟨hs, ?_, ?_⟩
  · rw [hh, key]
  · intro r hr hrs
    rw [hh, key] at hr
    obtain ⟨a, _, rfl⟩ := List.mem_map.mp hr
    by_cases ha : (a.stripeSubscriptionId == some ssid) = true
    · simp [ha]
    · simp only [Bool.not_eq_true] at ha
      rw [if_neg (by simp [ha])] at hrs ⊢
      exact absurd hrs (by simpa using ha)

/-- Witness for C9: the real Stripe status `"trialing"` is not in the map,
so the row is stored `active` and the user keeps their plan fields. -/
theorem unrecognized_status_stored_active_witness :
    statusMap "trialing" = "active"
    ∧ (handle_subscription_updated
        { users := [⟨7, "basic", 3, 50⟩], plans := [],
          subs := [{ userId := 7, planId := 1, status := "active",
                     stripeSubscriptionId := some "sub_1",
                     stripeCustomerId := none, startDate := 0, endDate := none,
                     currentPeriodStart := 0, currentPeriodEnd := 100,
                     cancelAtPeriodEnd := false, cancelledAt := none }] }
        "sub_1" "trialing" 999).users = [⟨7, "basic", 3, 50⟩] := by
  have h := unrecognized_status_stored_active
    { users := [⟨7, "basic", 3, 50⟩], plans := [],
      subs := [{ userId := 7, planId := 1, status := "active",
                 stripeSubscriptionId := some "sub_1",
                 stripeCustomerId := none, startDate := 0, endDate := none,
                 currentPeriodStart := 0, currentPeriodEnd := 100,
                 cancelAtPeriodEnd := false, cancelledAt := none }] }
    "sub_1" "trialing" 999
    { userId := 7, planId := 1, status := "active",
      stripeSubscriptionId := some "sub_1",
      stripeCustomerId := none, startDate := 0, endDate := none,
      currentPeriodStart := 0, currentPeriodEnd := 100,
      cancelAtPeriodEnd := false, cancelledAt := none }
    (by decide) (by decide) (by decide) (by decide) (by decide)
  exact ⟨h.1, h.2.1⟩

/-! ## CRUD layer (`crud.py`) -/

/-- Row of `pdf_versions` (`models.py` / `crud.py`). -/
structure PDFVersion where
  originalPdfId : Nat
  versionNumber : Nat
  versionName : String
  storedFilename : String
  filePath : String
  fileSize : Nat
  totalEdits : Nat
  deriving DecidableEq, Repr

/-- The rows the query in `create_pdf_version` ranges over:
`filter(PDFVersion.original_pdf_id == original_pdf_id)`. -/
def versionsOf (db : List PDFVersion) (pdfId : Nat) : List PDFVersion :=
  db.filter (fun v => v.originalPdfId == pdfId)

/-- Maximum of a non-empty list of naturals (empty ↦ `none`); embeds the
`order_by(version_number.desc()).first()` step of `create_pdf_version`,
which returns a row attaining the maximal version number, or `None`. -/
def natListMax : List Nat → Option Nat
  | [] => none
  | n :: ns => some (ns.foldl Nat.max n)

/-- `crud.create_pdf_version` (`crud.py`, lines 92–121): the new row gets
`version_number = last + 1` when a prior version exists, else `1`, and is
appended to the table. -/
def create_pdf_version (db : List PDFVersion) (pdfId : Nat)
    (storedFilename filePath : String) (fileSize editsCount : Nat) :
    PDFVersion × List PDFVersion :=
  let vn :=
    match natListMax ((versionsOf db pdfId).map (fun v => v.versionNumber)) with
    | some m => m + 1
    | none => 1
  let v : PDFVersion :=
    { originalPdfId := pdfId, versionNumber := vn,
      versionName := "Version " ++ toString vn,
      storedFilename := storedFilename, filePath := filePath,
      fileSize := fileSize, totalEdits := editsCount }
  (v, db ++ [v])

/-- `n` successive `create_pdf_version` calls against one document, one per
argument tuple (stored filename, path, size, edit count), in order. -/
def createVersionsSeq (pdfId : Nat) (db : List PDFVersion) :
    List (String × String × Nat × Nat) → List PDFVersion
  | [] => db
  | a :: rest =>
      createVersionsSeq pdfId
        (create_pdf_version db pdfId a.1 a.2.1 a.2.2.1 a.2.2.2).2 rest

/-! ## Theorems: version numbering (C3) -/

lemma natListMax_concat (l : List Nat) (a : Nat) :
    natListMax (l ++ [a]) =
      some (match natListMax l with | none => a | some m => Nat.max m a) := by
  cases l with
  | nil => rfl
  | cons n ns =>
      show some ((ns ++ [a]).foldl Nat.max n) = _
      rw [List.foldl_append]
      rfl

lemma natListMax_range_map (k : Nat) :
    natListMax ((List.range k).map (fun i => i + 1)) =
      if k = 0 then none else some k := by
  induction k with
  | zero => rfl
  | succ k ih =>
      rw [List.range_succ, List.map_append]
      simp only [List.map_cons, List.map_nil]
      rw [natListMax_concat, ih]
      cases k with
      | zero => rfl
      | succ j =>
          simp [Nat.max_eq_right (Nat.le_succ (j + 1))]

lemma versionsOf_append_new (db : List PDFVersion) (pdfId : Nat)
    (v : PDFVersion) (hv : v.originalPdfId = pdfId) :
    versionsOf (db ++ [v]) pdfId = versionsOf db pdfId ++ [v] := by
  unfold versionsOf
  rw [List.filter_append]
  simp [hv]

lemma create_pdf_version_step (db : List PDFVersion) (pdfId : Nat)
    (sf fp : String) (fs ec k : Nat)
    (hk : (versionsOf db pdfId).map (fun v => v.versionNumber) =
      (List.range k).map (fun i => i + 1)) :
    (create_pdf_version db pdfId sf fp fs ec).1.versionNumber = k + 1
    ∧ (versionsOf (create_pdf_version db pdfId sf fp fs ec).2 pdfId).map
        (fun v => v.versionNumber) = (List.range (k + 1)).map (fun i => i + 1) := by
  have hvn : (create_pdf_version db pdfId sf fp fs ec).1.versionNumber = k + 1 := by
    show (match natListMax ((versionsOf db pdfId).map (fun v => v.versionNumber)) with
          | some m => m + 1
          | none => 1) = k + 1
    rw [hk, natListMax_range_map]
    cases k with
    | zero => rfl
    | succ j => rfl
  refine ⟨hvn, ?_⟩
  have hsnd : (create_pdf_version db pdfId sf fp fs ec).2 =
      db ++ [(create_pdf_version db pdfId sf fp fs ec).1] := rfl
  have hown : (create_pdf_version db pdfId sf fp fs ec).1.originalPdfId = pdfId := rfl
  rw [hsnd, versionsOf_append_new db pdfId _ hown, List.map_append, hk]
  simp only [List.map_cons, List.map_nil]
  rw [hvn, List.range_succ, List.map_append]
  simp

/-- Claim C3: `create_pdf_version` numbers versions by `max(existing) + 1`
(`1` when the document has no versions yet: the fold base `0` plus one), and
`n` successive creations for one document starting from a state with no
versions of it yield versions numbered `1..n` in creation order. -/
theorem create_pdf_version_numbering (pdfId : Nat) (db : List PDFVersion)
    (argsList : List (String × String × Nat × Nat))
    (h0 : versionsOf db pdfId = []) :
    (∀ db2 sf fp fs ec,
      (create_pdf_version db2 pdfId sf fp fs ec).1.versionNumber =
        ((versionsOf db2 pdfId).map (fun v => v.versionNumber)).foldr Nat.max 0 + 1)
    ∧ (versionsOf (createVersionsSeq pdfId db argsList) pdfId).map
        (fun v => v.versionNumber) =
      (List.range argsList.length).map (fun i => i + 1) := by
  constructor
  · intro db2 sf fp fs ec
    show (match natListMax ((versionsOf db2 pdfId).map (fun v => v.versionNumber)) with
          | some m => m + 1
          | none => 1) = _
    have hfold : ∀ (ns : List Nat) (n : Nat),
        ns.foldl Nat.max n = Nat.max n (ns.foldr Nat.max 0) := by
      intro ns
      induction ns with
      | nil => intro n; simp
      | cons m ms ih =>
          intro n
          rw [List.foldl_cons, ih, List.foldr_cons]
          exact Nat.max_assoc n m _
    cases hc : (versionsOf db2 pdfId).map (fun v => v.versionNumber) with
    | nil => rfl
    | cons n ns =>
        show (ns.foldl Nat.max n) + 1 = _
        rw [hfold, List.foldr_cons]
  · have main : ∀ (args : List (String × String × Nat × Nat))
        (db1 : List PDFVersion) (k : Nat),
        (versionsOf db1 pdfId).map (fun v => v.versionNumber) =
          (List.range k).map (fun i => i + 1) →
        (versionsOf (createVersionsSeq pdfId db1 args) pdfId).map
          (fun v => v.versionNumber) =
          (List.range (k + args.length)).map (fun i => i + 1) := by
      intro args
      induction args with
      | nil => intro db1 k hk; simpa using hk
      | cons a rest ih =>
          intro db1 k hk
          have step := create_pdf_version_step db1 pdfId a.1 a.2.1 a.2.2.1 a.2.2.2 k hk
          have := ih (create_pdf_version db1 pdfId a.1 a.2.1 a.2.2.1 a.2.2.2).2
            (k + 1) step.2
          show (versionsOf (createVersionsSeq pdfId
            (create_pdf_version db1 pdfId a.1 a.2.1 a.2.2.1 a.2.2.2).2 rest)
              pdfId).map (fun v => v.versionNumber) = _
          rw [this]
          have harith : k + 1 + rest.length = k + (rest.length + 1) := by omega
          rw [List.length_cons, harith]
    have := main argsList db 0 (by rw [h0]; rfl)
    simpa using this

/-- Witness for C3: three successive version creations for document 7
starting from an empty table produce version numbers `[1, 2, 3]`. -/
theorem create_pdf_version_numbering_witness :
    (versionsOf (createVersionsSeq 7 []
      [("a.pdf", "/o/a.pdf", 10, 1), ("b.pdf", "/o/b.pdf", 20, 2),
       ("c.pdf", "/o/c.pdf", 30, 0)]) 7).map (fun v => v.versionNumber) =
      [1, 2, 3] := by
  have h := create_pdf_version_numbering 7 []
    [("a.pdf", "/o/a.pdf", 10, 1), ("b.pdf", "/o/b.pdf", 20, 2),
     ("c.pdf", "/o/c.pdf", 30, 0)] rfl
  rw [h.2]
  rfl

/-! ## Text edits and colour parsing (`utils/pdf_processor.py` lines 114–157,
`app.py` lines 135–163 — the two copies are line-for-line identical in the
logic modelled here) -/

/-- Whitespace accepted (and stripped) by Python's `int(s, 16)`. -/
def isPySpace (c : Char) : Bool :=
  c = ' ' || c = '\t' || c = '\n' || c = '\r' || c = '\x0b' || c = '\x0c'

/-- Hex digit value, by code point, as `int(s, 16)` accepts ASCII digits. -/
def hexDigitVal (c : Char) : Option Nat :=
  if 48 ≤ c.toNat ∧ c.toNat ≤ 57 then some (c.toNat - 48)
  else if 97 ≤ c.toNat ∧ c.toNat ≤ 102 then some (c.toNat - 97 + 10)
  else if 65 ≤ c.toNat ∧ c.toNat ≤ 70 then some (c.toNat - 65 + 10)
  else none

/-- Digit-string scanner of `int(s, 16)`: non-empty hex digit runs, single
underscores allowed only between digits; `none` models `ValueError`.  `acc`
holds the value scanned so far (`none` before the first digit) and `pu`
records a pending underscore that must still be followed by a digit. -/
def hexDigitsCore : List Char → Option Nat → Bool → Option Nat
  | [], acc, pu => if pu then none else acc
  | c :: cs, acc, pu =>
    if c = '_' then
      match acc, pu with
      | some a, false => hexDigitsCore cs (some a) true
      | _, _ => none
    else
      match hexDigitVal c, acc with
      | some d, some a => hexDigitsCore cs (some (16 * a + d)) false
      | some d, none => hexDigitsCore cs (some d) false
      | none, _ => none

/-- Python `str.strip()` of surrounding whitespace, as `int()` performs. -/
def pyStrip (s : List Char) : List Char :=
  ((s.dropWhile isPySpace).reverse.dropWhile isPySpace).reverse

/-- Python `int(s, 16)` restricted to the inputs `apply_text_edits` can pass
(slices of length ≤ 2, so the `0x` prefix form — which needs ≥ 3 characters —
cannot parse and is not modelled): strip whitespace, optional sign, then a
hex digit run; `none` models the `ValueError` raised otherwise. -/
def pyIntHex (s : List Char) : Option Int :=
  let t := pyStrip s
  if t.isEmpty then none
  else if t.head? = some '-' then
    (hexDigitsCore t.tail none false).map (fun n => -(n : Int))
  else if t.head? = some '+' then
    (hexDigitsCore t.tail none false).map (fun n => (n : Int))
  else
    (hexDigitsCore t none false).map (fun n => (n : Int))

/-- Python slice `s[i:i+n]` for non-negative bounds (clamping). -/
def pySlice (s : List Char) (i n : Nat) : List Char :=
  (s.drop i).take n

/-- The colour computation of one loop iteration of `apply_text_edits`
(lines 137–141 of `utils/pdf_processor.py`): `(0,0,0)` when `edit.color` is
falsy (`None` or the empty string); otherwise strip leading `#` characters
and evaluate `int(hex_color[i:i+2], 16) / 255` for `i in (0, 2, 4)`.
`none` models the `ValueError` a non-hex pair raises — the exception
propagates out of the per-edit loop. -/
def edit_color_value (s : List Char) : Option (ℚ × ℚ × ℚ) :=
  let hex := s.dropWhile (fun ch => ch = '#')
  match pyIntHex (pySlice hex 0 2), pyIntHex (pySlice hex 2 2),
        pyIntHex (pySlice hex 4 2) with
  | some r, some g, some b =>
      some ((r : ℚ) / 255, (g : ℚ) / 255, (b : ℚ) / 255)
  | _, _, _ => none

/-- The branch on `edit.color`: Python's truthiness test takes the default
for `None` and for the empty string. -/
def edit_color_channels (c : Option (List Char)) : Option (ℚ × ℚ × ℚ) :=
  match c with
  | none => some (0, 0, 0)
  | some s =>
    if s.isEmpty then some (0, 0, 0)
    else edit_color_value s

/-- A text edit of the download request body (`schemas.py` `TextEdit`). -/
structure TextEdit where
  page : Nat
  bbox : ℚ × ℚ × ℚ × ℚ
  old_text : String
  new_text : String
  fontSize : ℚ
  color : Option (List Char)
  deriving DecidableEq, Repr

/-- One `page.insert_text` call recorded in the saved output: the point is
`(rect.x0, rect.y0 + edit.fontSize)`. -/
structure InsertedText where
  page : Nat
  point : ℚ × ℚ
  text : String
  fontsize : ℚ
  color : ℚ × ℚ × ℚ
  deriving DecidableEq, Repr

/-- Observable outcome of `apply_text_edits`: the returned boolean, the text
insertions present in the saved output, and whether `doc.save` ran. -/
structure EditsOutcome where
  success : Bool
  savedInserted : List InsertedText
  savedOutput : Bool
  deriving DecidableEq, Repr

/-- The `for edit in edits` loop of `apply_text_edits`.  `doc[edit.page]`
raises past the page count and an unparsable colour raises; either exception
escapes the loop (there is no per-edit `try`), modelled as `none`. -/
def applyEditsLoop (pageCount : Nat) :
    List TextEdit → List InsertedText → Option (List InsertedText)
  | [], acc => some acc
  | e :: rest, acc =>
    if e.page < pageCount then
      match edit_color_channels e.color with
      | some col =>
          applyEditsLoop pageCount rest
            (acc ++ [{ page := e.page,
                       point := (e.bbox.1, e.bbox.2.1 + e.fontSize),
                       text := e.new_text, fontsize := e.fontSize,
                       color := col }])
      | none => none
    else none

/-- `apply_text_edits` (`utils/pdf_processor.py` lines 114–157).  `openOk`
models whether `fitz.open` succeeds and `saveOk` whether `doc.save` does;
any exception reaches the outer `except` and the function returns `False`,
with no output file written. -/
def apply_text_edits (openOk : Bool) (pageCount : Nat) (saveOk : Bool)
    (edits : List TextEdit) : EditsOutcome :=
  if openOk then
    match applyEditsLoop pageCount edits [] with
    | some ins => if saveOk then ⟨true, ins, true⟩ else ⟨false, [], false⟩
    | none => ⟨false, [], false⟩
  else ⟨false, [], false⟩

/-! ## Theorems: colour parsing (C4) -/

lemma hexDigitVal_isSome_facts (c : Char) (v : Nat) (h : hexDigitVal c = some v) :
    v ≤ 15 ∧ isPySpace c = false ∧ c ≠ '#' ∧ c ≠ '-' ∧ c ≠ '+' ∧ c ≠ '_' := by
  have hb : (48 ≤ c.toNat ∧ c.toNat ≤ 57) ∨ (97 ≤ c.toNat ∧ c.toNat ≤ 102)
      ∨ (65 ≤ c.toNat ∧ c.toNat ≤ 70) := by
    simp only [hexDigitVal] at h
    split_ifs at h with h1 h2 h3
    · exact Or.inl h1
    · exact Or.inr (Or.inl h2)
    · exact Or.inr (Or.inr h3)
  have hv : v ≤ 15 := by
    simp only [hexDigitVal] at h
    split_ifs at h with h1 h2 h3
    · injection h with he; omega
    · injection h with he; omega
    · injection h with he; omega
  refine ⟨hv, ?_, ?_, ?_, ?_, ?_⟩
  · by_contra hsp
    simp only [Bool.not_eq_false, isPySpace, Bool.or_eq_true,
      decide_eq_true_eq] at hsp
    rcases hsp with ((((he | he) | he) | he) | he) | he <;>
      (subst he; revert hb; decide)
  · intro he; subst he; revert hb; decide
  · intro he; subst he; revert hb; decide
  · intro he; subst he; revert hb; decide
  · intro he; subst he; revert hb; decide

lemma dropWhile_eq_self_of_no_match (p : Char → Bool) (l : List Char)
    (h : ∀ c ∈ l, p c = false) : l.dropWhile p = l := by
  cases l with
  | nil => rfl
  | cons a t =>
      have := h a (List.mem_cons_self a t)
      simp [List.dropWhile_cons, this]

lemma pyStrip_eq_self (l : List Char) (h : ∀ c ∈ l, isPySpace c = false) :
    pyStrip l = l := by
  unfold pyStrip
  rw [dropWhile_eq_self_of_no_match _ l h,
    dropWhile_eq_self_of_no_match _ l.reverse
      (fun c hc => h c (List.mem_reverse.mp hc)),
    List.reverse_reverse]

lemma pyIntHex_two (c1 c2 : Char) (v1 v2 : Nat)
    (h1 : hexDigitVal c1 = some v1) (h2 : hexDigitVal c2 = some v2) :
    pyIntHex [c1, c2] = some ((16 * v1 + v2 : Nat) : Int) := by
  obtain ⟨_, hsp1, _, hm1, hp1, hu1⟩ := hexDigitVal_isSome_facts c1 v1 h1
  obtain ⟨_, hsp2, _, _, _, hu2⟩ := hexDigitVal_isSome_facts c2 v2 h2
  have hstrip : pyStrip [c1, c2] = [c1, c2] := by
    apply pyStrip_eq_self
    intro c hc
    simp only [List.mem_cons, List.not_mem_nil, or_false] at hc
    rcases hc with rfl | rfl
    · exact hsp1
    · exact hsp2
  simp only [pyIntHex, hstrip]
  have hm1' : ¬(([c1, c2] : List Char).head? = some '-') := by simp [hm1]
  have hp1' : ¬(([c1, c2] : List Char).head? = some '+') := by simp [hp1]
  rw [if_neg (by simp : ¬(([c1, c2] : List Char).isEmpty = true)),
    if_neg hm1', if_neg hp1']
  simp [hexDigitsCore, hu1, hu2, h1, h2]

lemma applyEditsLoop_none_of_bad_color (pc : Nat) (edits : List TextEdit)
    (acc : List InsertedText)
    (h : ∃ e ∈ edits, edit_color_channels e.color = none) :
    applyEditsLoop pc edits acc = none := by
  induction edits generalizing acc with
  | nil => obtain ⟨e, he, _⟩ := h; exact absurd he (List.not_mem_nil e)
  | cons a rest ih =>
      obtain ⟨e, he, hcol⟩ := h
      unfold applyEditsLoop
      by_cases hp : a.page < pc
      · rw [if_pos hp]
        cases hc : edit_color_channels a.color with
        | none => rfl
        | some col =>
            have hne : e ≠ a := by
              intro hea; rw [hea, hc] at hcol; exact Option.noConfusion hcol
            have her : e ∈ rest := by
              rcases List.mem_cons.mp he with hea | her
              · exact absurd hea hne
              · exact her
            exact ih _ ⟨e, her, hcol⟩
      · rw [if_neg hp]

/-- Claim C4 (amended): a `#RRGGBB` hex colour parses into the three channel
values `byte-pair / 255`, each in `[0, 1]`; the default black `(0,0,0)` is
used when the colour is absent (`None` or the empty string, the falsy
values); but an edit whose colour is present and unparsable makes the whole
`apply_text_edits` call fail (return `False`) rather than falling back to
black. -/
theorem apply_text_edits_color_spec :
    (∀ d1 d2 d3 d4 d5 d6 : Char, ∀ v1 v2 v3 v4 v5 v6 : Nat,
      hexDigitVal d1 = some v1 → hexDigitVal d2 = some v2 →
      hexDigitVal d3 = some v3 → hexDigitVal d4 = some v4 →
      hexDigitVal d5 = some v5 → hexDigitVal d6 = some v6 →
      edit_color_channels (some ['#', d1, d2, d3, d4, d5, d6]) =
        some (((16 * v1 + v2 : Nat) : ℚ) / 255,
              ((16 * v3 + v4 : Nat) : ℚ) / 255,
              ((16 * v5 + v6 : Nat) : ℚ) / 255))
    ∧ (∀ a b : Nat, a ≤ 15 → b ≤ 15 →
        (0 : ℚ) ≤ ((16 * a + b : Nat) : ℚ) / 255
        ∧ ((16 * a + b : Nat) : ℚ) / 255 ≤ 1)
    ∧ edit_color_channels none = some (0, 0, 0)
    ∧ edit_color_channels (some []) = some (0, 0, 0)
    ∧ (∀ (openOk : Bool) (pc : Nat) (saveOk : Bool) (edits : List TextEdit),
        (∃ e ∈ edits, edit_color_channels e.color = none) →
        (apply_text_edits openOk pc saveOk edits).success = false) := by
  refine ⟨?_, ?_, rfl, rfl, ?_⟩
  · intro d1 d2 d3 d4 d5 d6 v1 v2 v3 v4 v5 v6 h1 h2 h3 h4 h5 h6
    obtain ⟨_, _, hH1, _, _, _⟩ := hexDigitVal_isSome_facts d1 v1 h1
    have hdrop : ['#', d1, d2, d3, d4, d5, d6].dropWhile (fun ch => ch = '#') =
        [d1, d2, d3, d4, d5, d6] := by
      simp [List.dropWhile_cons, hH1]
    have hval : edit_color_value ['#', d1, d2, d3, d4, d5, d6] =
        some (((16 * v1 + v2 : Nat) : ℚ) / 255,
              ((16 * v3 + v4 : Nat) : ℚ) / 255,
              ((16 * v5 + v6 : Nat) : ℚ) / 255) := by
      simp only [edit_color_value]
      rw [hdrop]
      have hs1 : pySlice [d1, d2, d3, d4, d5, d6] 0 2 = [d1, d2] := rfl
      have hs2 : pySlice [d1, d2, d3, d4, d5, d6] 2 2 = [d3, d4] := rfl
      have hs3 : pySlice [d1, d2, d3, d4, d5, d6] 4 2 = [d5, d6] := rfl
      rw [hs1, hs2, hs3, pyIntHex_two d1 d2 v1 v2 h1 h2,
        pyIntHex_two d3 d4 v3 v4 h3 h4, pyIntHex_two d5 d6 v5 v6 h5 h6]
      simp
    simp only [edit_color_channels]
    rw [if_neg (by simp :
      ¬((['#', d1, d2, d3, d4, d5, d6] : List Char).isEmpty = true))]
    exact hval
  · intro a b ha hb
    constructor
    · positivity
    · rw [div_le_one (by norm_num)]
      have : (16 * a + b : Nat) ≤ 255 := by omega
      exact_mod_cast this
  · intro openOk pc saveOk edits hbad
    unfold apply_text_edits
    by_cases ho : openOk = true
    · rw [if_pos ho, applyEditsLoop_none_of_bad_color pc edits [] hbad]
    · rw [if_neg ho]

/-- Witness for C4 (amended): `"#FF0000"` parses to `(1, 0, 0)`, an absent
colour gives black, and a `"#GGGGGG"` edit makes the call fail. -/
theorem apply_text_edits_color_spec_witness :
    edit_color_channels (some ['#', 'F', 'F', '0', '0', '0', '0']) =
      some (1, 0, 0)
    ∧ edit_color_channels none = some (0, 0, 0)
    ∧ (apply_text_edits true 1 true
        [{ page := 0, bbox := (0, 0, 10, 10), old_text := "a", new_text := "b",
           fontSize := 12,
           color := some ['#', 'G', 'G', 'G', 'G', 'G', 'G'] }]).success
        = false := by
  have h1 := apply_text_edits_color_spec.1 'F' 'F' '0' '0' '0' '0'
    15 15 0 0 0 0 (by decide) (by decide) (by decide) (by decide)
    (by decide) (by decide)
  have h3 := apply_text_edits_color_spec.2.2.2.2 true 1 true
    [{ page := 0, bbox := (0, 0, 10, 10), old_text := "a", new_text := "b",
       fontSize := 12, color := some ['#', 'G', 'G', 'G', 'G', 'G', 'G'] }]
    ⟨_, List.mem_cons_self _ _, by decide⟩
  refine ⟨?_, apply_text_edits_color_spec.2.2.1, h3⟩
  rw [h1]
  norm_num

/-- Counterexample for C4 as stated: for the present but unparsable colour
`"#GGGGGG"`, `apply_text_edits` does not substitute the default black — the
parse raises, the call returns `False` and writes nothing, so the claim's
"default black is used whenever the color is absent or unparsable" is false
for unparsable colours. -/
theorem apply_text_edits_unparsable_color_cex :
    edit_color_channels (some ['#', 'G', 'G', 'G', 'G', 'G', 'G']) = none
    ∧ apply_text_edits true 1 true
        [{ page := 0, bbox := (0, 0, 10, 10), old_text := "a", new_text := "b",
           fontSize := 12, color := some ['#', 'G', 'G', 'G', 'G', 'G', 'G'] }] =
      { success := false, savedInserted := [], savedOutput := false } := by
  exact ⟨by decide, by decide⟩

/-! ## Signature application (`utils/pdf_processor.py` lines 160–218 and the
identical-logic copy in `app.py` lines 165–232) -/

/-- The literal `'base64,'` used by the data-URL check and split. -/
def b64marker : List Char := "base64,".data

/-- The suffix following the first occurrence of `'base64,'`, if any;
`none` models `'base64,' in img_data` being false. -/
def afterFirstMarker : List Char → Option (List Char)
  | [] => none
  | c :: rest =>
    if b64marker.isPrefixOf (c :: rest) then
      some ((c :: rest).drop b64marker.length)
    else afterFirstMarker rest

/-- The characters before the next occurrence of `'base64,'` (all of them if
none occurs): `split('base64,')[1]` keeps only up to the next separator. -/
def beforeMarker : List Char → List Char
  | [] => []
  | c :: rest =>
    if b64marker.isPrefixOf (c :: rest) then []
    else c :: beforeMarker rest

/-- Lines 183–185: `if 'base64,' in img_data: img_data =
img_data.split('base64,')[1]`. -/
def stripImageData (s : List Char) : List Char :=
  match afterFirstMarker s with
  | some t => beforeMarker t
  | none => s

/-- A signature of the download request body (`schemas.py` `Signature`). -/
structure Signature where
  page : Nat
  x : ℚ
  y : ℚ
  width : ℚ
  height : ℚ
  image : List Char
  deriving DecidableEq, Repr

/-- One successful `page.insert_image` call: the target rectangle is
`fitz.Rect(sig.x, sig.y, sig.x + sig.width, sig.y + sig.height)`. -/
structure PlacedSig where
  page : Nat
  rect : ℚ × ℚ × ℚ × ℚ
  imageBytes : List Nat
  deriving DecidableEq, Repr

/-- The body of the inner per-signature `try` of `apply_signatures`:
`doc[sig.page]` raises past the page count, and `processImage` abstracts
`base64.b64decode` + the PIL decode / RGBA-flatten / PNG re-encode pipeline
(`none` models any exception in it).  A `none` result is the caught,
logged-and-skipped case. -/
def processSignature (processImage : List Char → Option (List Nat))
    (pageCount : Nat) (sig : Signature) : Option PlacedSig :=
  if sig.page < pageCount then
    (processImage (stripImageData sig.image)).map (fun bytes =>
      { page := sig.page,
        rect := (sig.x, sig.y, sig.x + sig.width, sig.y + sig.height),
        imageBytes := bytes })
  else none

/-- Observable outcome of `apply_signatures`: the returned boolean, whether
`fitz.open` was attempted on the input, whether `doc.save` wrote the output
path, and the signatures present in the saved output. -/
structure SigOutcome where
  success : Bool
  openedInput : Bool
  savedOutput : Bool
  placed : List PlacedSig
  deriving DecidableEq, Repr

/-- `apply_signatures` (`utils/pdf_processor.py` lines 160–218): immediate
`True` for an empty list — before the input is opened or anything is saved;
otherwise each signature is processed inside its own `try/except continue`,
the document is saved, and `True` is returned.  `openOk`/`saveOk` model
`fitz.open` and `doc.save` succeeding; their failure hits the outer
`except` and returns `False` with no output written. -/
def apply_signatures (processImage : List Char → Option (List Nat))
    (openOk : Bool) (pageCount : Nat) (saveOk : Bool)
    (sigs : List Signature) : SigOutcome :=
  if sigs.length = 0 then
    { success := true, openedInput := false, savedOutput := false, placed := [] }
  else if openOk then
    if saveOk then
      { success := true, openedInput := true, savedOutput := true,
        placed := sigs.filterMap (processSignature processImage pageCount) }
    else
      { success := false, openedInput := true, savedOutput := false, placed := [] }
  else
    { success := false, openedInput := true, savedOutput := false, placed := [] }

/-! ## Theorems: signature batch behaviour (C5, C10) -/

/-- Claim C5: `apply_signatures` returns success immediately for an empty
signature list; and for a non-empty list in which individual signatures may
fail (e.g. undecodable base64 data), the failures are skipped, every
signature that processes successfully is placed, and the call still reports
overall success. -/
theorem apply_signatures_partial_failure
    (processImage : List Char → Option (List Nat)) (pageCount : Nat) :
    (∀ openOk saveOk,
      (apply_signatures processImage openOk pageCount saveOk []).success = true)
    ∧ (∀ sigs : List Signature, sigs ≠ [] →
        (apply_signatures processImage true pageCount true sigs).success = true
        ∧ (apply_signatures processImage true pageCount true sigs).placed =
            sigs.filterMap (processSignature processImage pageCount)
        ∧ ∀ sig ∈ sigs, ∀ p,
            processSignature processImage pageCount sig = some p →
            p ∈ (apply_signatures processImage true pageCount true sigs).placed) := by
  constructor
  · intro openOk saveOk
    rfl
  · intro sigs hne
    have hlen : ¬(sigs.length = 0) := by
      simpa [List.length_eq_zero] using hne
    unfold apply_signatures
    rw [if_neg hlen, if_pos rfl, if_pos rfl]
    refine ⟨rfl, rfl, ?_⟩
    intro sig hsig p hp
    exact List.mem_filterMap.mpr ⟨sig, hsig, hp⟩

/-- Witness for C5: of three signatures, the middle one has undecodable
image data; the call succeeds and places exactly the two valid ones. -/
theorem apply_signatures_partial_failure_witness :
    (apply_signatures
      (fun s => if s = ['o', 'k'] then some [7] else none) true 5 true
      [{ page := 0, x := 1, y := 2, width := 3, height := 4,
         image := "data:image/png;base64,ok".data },
       { page := 0, x := 0, y := 0, width := 1, height := 1,
         image := "data:image/png;base64,???".data },
       { page := 1, x := 5, y := 6, width := 7, height := 8,
         image := "data:image/png;base64,ok".data }]).success = true
    ∧ (apply_signatures
      (fun s => if s = ['o', 'k'] then some [7] else none) true 5 true
      [{ page := 0, x := 1, y := 2, width := 3, height := 4,
         image := "data:image/png;base64,ok".data },
       { page := 0, x := 0, y := 0, width := 1, height := 1,
         image := "data:image/png;base64,???".data },
       { page := 1, x := 5, y := 6, width := 7, height := 8,
         image := "data:image/png;base64,ok".data }]).placed.length = 2 := by
  have h := (apply_signatures_partial_failure
    (fun s => if s = ['o', 'k'] then some [7] else none) 5).2
    [{ page := 0, x := 1, y := 2, width := 3, height := 4,
       image := "data:image/png;base64,ok".data },
     { page := 0, x := 0, y := 0, width := 1, height := 1,
       image := "data:image/png;base64,???".data },
     { page := 1, x := 5, y := 6, width := 7, height := 8,
       image := "data:image/png;base64,ok".data }] (by simp)
  refine ⟨h.1, ?_⟩
  rw [h.2.1]
  rfl

/-- Claim C10: for an empty signature list, `apply_signatures` succeeds
without ever opening the input document and without writing the output path;
for every non-empty list, a successful return implies the output document
was saved. -/
theorem apply_signatures_frame
    (processImage : List Char → Option (List Nat)) (pageCount : Nat) :
    (∀ openOk saveOk,
      apply_signatures processImage openOk pageCount saveOk [] =
        { success := true, openedInput := false, savedOutput := false,
          placed := [] })
    ∧ (∀ (sigs : List Signature) (openOk saveOk : Bool), sigs ≠ [] →
        (apply_signatures processImage openOk pageCount saveOk sigs).success
          = true →
        (apply_signatures processImage openOk pageCount saveOk sigs).savedOutput
          = true) := by
  constructor
  · intro openOk saveOk
    rfl
  · intro sigs openOk saveOk hne hsucc
    have hlen : ¬(sigs.length = 0) := by
      simpa [List.length_eq_zero] using hne
    unfold apply_signatures at hsucc ⊢
    rw [if_neg hlen] at hsucc ⊢
    cases openOk with
    | false => simp at hsucc
    | true =>
        cases saveOk with
        | false => simp at hsucc
        | true => rfl

/-- Witness for C10: a singleton list that succeeds did save the output. -/
theorem apply_signatures_frame_witness :
    (apply_signatures (fun _ => some [1]) true 5 true
      [{ page := 0, x := 0, y := 0, width := 1, height := 1,
         image := "sig".data }]).savedOutput = true := by
  exact (apply_signatures_frame (fun _ => some [1]) 5).2
    [{ page := 0, x := 0, y := 0, width := 1, height := 1,
       image := "sig".data }] true true (by simp) rfl

/-! ## Download route (`app.py` lines 335–457; the `routes/pdf_routes.py`
variant differs only in using the in-memory session map in place of the
`pdfs` table lookup) -/

/-- Row of the `pdfs` table (`models.py`), restricted to the columns the
download route reads. -/
structure PDF where
  id : Nat
  sessionId : String
  isActive : Bool
  filePath : String
  originalFilename : String
  deriving DecidableEq, Repr

/-- `crud.get_pdf_by_session` (`crud.py`, lines 40–45): first row matching
the session id with `is_active == True`. -/
def get_pdf_by_session (db : List PDF) (sid : String) : Option PDF :=
  (db.filter (fun p => p.sessionId == sid && p.isActive)).head?

/-- The `POST /api/download` handler (`app.py` lines 335–457), up to the
version bookkeeping.  `fileExists` models `Path(...).exists()`;
`editsOk`/`sigsOk` model the booleans returned by `apply_text_edits` /
`apply_signatures` on this request's data; errors are
`(status code, detail)` of the raised `HTTPException` (the handler re-raises
`HTTPException` unchanged past its generic `except`).  On success a new
`PDFVersion` row is created via `crud.create_pdf_version` with
`edits_data + sigs_data` as the edit summary. -/
def download_pdf (db : List PDF) (vdb : List PDFVersion)
    (fileExists : String → Bool) (editsOk sigsOk : Bool)
    (outputFilename outputPath : String) (outputSize : Nat)
    (sessionId : String) (edits : List TextEdit) (sigs : List Signature) :
    Except (Nat × String) (PDFVersion × List PDFVersion) :=
  if edits.length = 0 ∧ sigs.length = 0 then
    .error (400, "No changes to save")
  else
    match get_pdf_by_session db sessionId with
    | none => .error (404, "PDF not found or expired")
    | some pdf =>
      if fileExists pdf.filePath = false then
        .error (404, "Original PDF file not found")
      else if edits.length > 0 ∧ editsOk = false then
        .error (500, "Failed to apply text edits")
      else if sigs.length > 0 ∧ sigsOk = false then
        .error (500, "Failed to apply signatures")
      else
        .ok (create_pdf_version vdb pdf.id outputFilename outputPath
          outputSize (edits.length + sigs.length))

/-- Claim C6: `POST /api/download` fails with 400 when both the edits and
the signatures lists are empty; with 404 when the session id resolves to no
active document; and with 404 when the resolved document's source file no
longer exists on disk. -/
theorem download_pdf_error_codes (db : List PDF) (vdb : List PDFVersion)
    (fileExists : String → Bool) (editsOk sigsOk : Bool)
    (ofn op : String) (os : Nat) (sid : String)
    (edits : List TextEdit) (sigs : List Signature) :
    (edits = [] → sigs = [] →
      download_pdf db vdb fileExists editsOk sigsOk ofn op os sid edits sigs =
        .error (400, "No changes to save"))
    ∧ (¬(edits = [] ∧ sigs = []) → get_pdf_by_session db sid = none →
        download_pdf db vdb fileExists editsOk sigsOk ofn op os sid edits sigs =
          .error (404, "PDF not found or expired"))
    ∧ (∀ pdf, ¬(edits = [] ∧ sigs = []) →
        get_pdf_by_session db sid = some pdf → fileExists pdf.filePath = false →
        download_pdf db vdb fileExists editsOk sigsOk ofn op os sid edits sigs =
          .error (404, "Original PDF file not found")) := by
  refine ⟨?_, ?_, ?_⟩
  · intro he hs
    unfold download_pdf
    rw [if_pos ⟨by simp [he], by simp [hs]⟩]
  · intro hne hg
    unfold download_pdf
    rw [if_neg (by simpa [List.length_eq_zero] using hne), hg]
  · intro pdf hne hg hfe
    unfold download_pdf
    rw [if_neg (by simpa [List.length_eq_zero] using hne), hg]
    simp [hfe]

/-- Witness for C6: the three failure gates at concrete requests. -/
theorem download_pdf_error_codes_witness :
    download_pdf [] [] (fun _ => true) true true "o" "p" 9 "s1" [] [] =
      .error (400, "No changes to save")
    ∧ download_pdf [] [] (fun _ => true) true true "o" "p" 9 "s1" []
        [{ page := 0, x := 0, y := 0, width := 1, height := 1,
           image := "i".data }] =
      .error (404, "PDF not found or expired")
    ∧ download_pdf [⟨1, "s1", true, "/up/f.pdf", "f.pdf"⟩] []
        (fun _ => false) true true "o" "p" 9 "s1" []
        [{ page := 0, x := 0, y := 0, width := 1, height := 1,
           image := "i".data }] =
      .error (404, "Original PDF file not found") := by
  refine ⟨?_, ?_, ?_⟩
  · exact (download_pdf_error_codes [] [] (fun _ => true) true true
      "o" "p" 9 "s1" [] []).1 rfl rfl
  · exact (download_pdf_error_codes [] [] (fun _ => true) true true
      "o" "p" 9 "s1" []
      [{ page := 0, x := 0, y := 0, width := 1, height := 1,
         image := "i".data }]).2.1 (by simp) rfl
  · exact (download_pdf_error_codes [⟨1, "s1", true, "/up/f.pdf", "f.pdf"⟩] []
      (fun _ => false) true true "o" "p" 9 "s1" []
      [{ page := 0, x := 0, y := 0, width := 1, height := 1,
         image := "i".data }]).2.2 _ (by simp) rfl rfl

/-! ## Stripe webhook endpoint (`routes/payment_routes.py` lines 83–134,
`services/payment_service.py` lines 151–169) -/

/-- A parsed webhook event; only the dispatch type is needed here, the
`data.object` payload is consumed inside the per-type handlers, which are
abstracted by the `dispatch` parameter below. -/
structure WebhookEvent where
  type : String
  deriving DecidableEq, Repr

/-- `PaymentService.construct_webhook_event`: signature verification is
skipped; the payload is parsed as JSON (`parseJson` abstracts `json.loads`,
`none` modelling a parse error) and a parse failure raises
`HTTPException(400)`. -/
def construct_webhook_event (parseJson : List Char → Option WebhookEvent)
    (payload : List Char) : Except (Nat × String) WebhookEvent :=
  match parseJson payload with
  | some ev => .ok ev
  | none => .error (400, "Invalid JSON payload")

/-- The `POST /api/payment/webhook` handler (`payment_routes.py` lines
83–134).  A parse failure is re-raised; the entire event dispatch runs
inside `try/except` whose handler only logs, after which
`{"status": "success"}` is returned.  `dispatch` abstracts the per-type
handlers: it returns the database state they leave behind and, optionally,
the exception they raised. -/
def stripe_webhook (parseJson : List Char → Option WebhookEvent)
    (dispatch : WebhookEvent → DBState → DBState × Option String)
    (st : DBState) (payload : List Char) :
    Except (Nat × String) (String × DBState) :=
  match construct_webhook_event parseJson payload with
  | .error e => .error e
  | .ok ev =>
      let r := dispatch ev st
      .ok ("success", r.1)

/-- Claim C7: for every inbound webhook request whose payload parses, the
endpoint acknowledges success to the payment processor even when the
internal event handling throws; the failure is only logged. -/
theorem stripe_webhook_always_acks
    (parseJson : List Char → Option WebhookEvent)
    (dispatch : WebhookEvent → DBState → DBState × Option String)
    (st st2 : DBState) (payload : List Char) (ev : WebhookEvent) (msg : String)
    (hparse : parseJson payload = some ev)
    (hthrow : dispatch ev st = (st2, some msg)) :
    stripe_webhook parseJson dispatch st payload = .ok ("success", st2) := by
  unfold stripe_webhook construct_webhook_event
  rw [hparse]
  simp [hthrow]

/-- Witness for C7: a `checkout.session.completed` event whose handler
throws is still acknowledged with success. -/
theorem stripe_webhook_always_acks_witness :
    stripe_webhook (fun _ => some ⟨"checkout.session.completed"⟩)
      (fun _ st => (st, some "boom")) ⟨[], [], []⟩ "payload".data =
      .ok ("success", ⟨[], [], []⟩) := by
  exact stripe_webhook_always_acks _ _ _ _ _ _ "boom" rfl rfl

/-! ## Password hashing (`auth.py` lines 24–30)

`get_password_hash` and `verify_password` slice the Python string to its
first 72 characters (`password[:72]`) and hand it to passlib's bcrypt
context, whose bcrypt core operates on the UTF-8 encoding of the secret
truncated to 72 bytes (the documented limitation of the scheme).  The
bcrypt core itself is external and abstracted by the `bcryptHash` /
`bcryptCheck` parameters over those 72 input bytes. -/

/-- UTF-8 encoding of one code point. -/
def utf8EncodeChar (c : Char) : List Nat :=
  let n := c.toNat
  if n < 128 then [n]
  else if n < 2048 then [192 + n / 64, 128 + n % 64]
  else if n < 65536 then [224 + n / 4096, 128 + (n / 64) % 64, 128 + n % 64]
  else [240 + n / 262144, 128 + (n / 4096) % 64, 128 + (n / 64) % 64,
        128 + n % 64]

/-- UTF-8 encoding of a string (as its code-point list). -/
def utf8Encode (s : List Char) : List Nat :=
  (s.map utf8EncodeChar).flatten

/-- The bytes that reach the bcrypt core for a given Python string: its
UTF-8 encoding truncated to 72 bytes. -/
def bcrypt_input (p : List Char) : List Nat :=
  (utf8Encode p).take 72

/-- `auth.get_password_hash`: `pwd_context.hash(password[:72])`. -/
def get_password_hash (bcryptHash : List Nat → String)
    (password : List Char) : String :=
  bcryptHash (bcrypt_input (password.take 72))

/-- `auth.verify_password`: `pwd_context.verify(plain_password[:72], h)`. -/
def verify_password (bcryptCheck : List Nat → String → Bool)
    (plain : List Char) (hashed : String) : Bool :=
  bcryptCheck (bcrypt_input (plain.take 72)) hashed

/-! ## Theorems: 72-byte truncation (C8) -/

lemma utf8EncodeChar_length_pos (c : Char) : 1 ≤ (utf8EncodeChar c).length := by
  simp only [utf8EncodeChar]
  split_ifs <;> simp

lemma utf8Encode_length_ge (l : List Char) : l.length ≤ (utf8Encode l).length := by
  induction l with
  | nil => simp [utf8Encode]
  | cons c t ih =>
      have hc := utf8EncodeChar_length_pos c
      simp only [utf8Encode, List.map_cons, List.flatten_cons, List.length_append,
        List.length_cons]
      simp only [utf8Encode] at ih
      omega

lemma utf8Encode_append (a b : List Char) :
    utf8Encode (a ++ b) = utf8Encode a ++ utf8Encode b := by
  simp [utf8Encode, List.flatten_append]

/-- The character-level slice `[:72]` performed in `auth.py` never changes
the 72 bytes the bcrypt core sees: the first 72 characters cover at least
the first 72 UTF-8 bytes. -/
lemma bcrypt_input_take (p : List Char) :
    bcrypt_input (p.take 72) = (utf8Encode p).take 72 := by
  unfold bcrypt_input
  have hsplit : utf8Encode p = utf8Encode (p.take 72) ++ utf8Encode (p.drop 72) := by
    rw [← utf8Encode_append, List.take_append_drop]
  rw [hsplit, List.take_append_eq_append_take]
  by_cases h : 72 ≤ (utf8Encode (p.take 72)).length
  · have h0 : 72 - (utf8Encode (p.take 72)).length = 0 := by omega
    rw [h0]
    simp
  · have hlen : (p.take 72).length ≤ (utf8Encode (p.take 72)).length :=
      utf8Encode_length_ge _
    have hplen : p.length < 72 := by
      have := List.length_take 72 p
      by_contra hge
      push_neg at hge
      have : (p.take 72).length = 72 := by
        rw [List.length_take]
        omega
      omega
    have hdrop : p.drop 72 = [] := List.drop_eq_nil_of_le (by omega)
    rw [hdrop]
    simp [utf8Encode]

/-- Claim C8: password hashing and verification depend only on the first
72 bytes of the (UTF-8 encoded) password: two passwords agreeing on their
first 72 bytes hash identically and verify identically against any stored
hash. -/
theorem password_prefix72 (bcryptHash : List Nat → String)
    (bcryptCheck : List Nat → String → Bool) (p1 p2 : List Char)
    (h : (utf8Encode p1).take 72 = (utf8Encode p2).take 72) :
    get_password_hash bcryptHash p1 = get_password_hash bcryptHash p2
    ∧ ∀ hashed, verify_password bcryptCheck p1 hashed =
        verify_password bcryptCheck p2 hashed := by
  unfold get_password_hash verify_password
  rw [bcrypt_input_take, bcrypt_input_take, h]
  exact ⟨rfl, fun _ => rfl⟩

/-- Witness for C8: two 73-character passwords differing only in their 73rd
byte hash and verify identically. -/
theorem password_prefix72_witness :
    get_password_hash (fun bytes => toString bytes)
        (List.replicate 72 'a' ++ ['x'])
      = get_password_hash (fun bytes => toString bytes)
        (List.replicate 72 'a' ++ ['y'])
    ∧ verify_password (fun bytes h => toString bytes == h)
        (List.replicate 72 'a' ++ ['x']) "stored"
      = verify_password (fun bytes h => toString bytes == h)
        (List.replicate 72 'a' ++ ['y']) "stored" := by
  have h := password_prefix72 (fun bytes => toString bytes)
    (fun bytes h => toString bytes == h)
    (List.replicate 72 'a' ++ ['x']) (List.replicate 72 'a' ++ ['y'])
    (by decide)
  exact ⟨h.1, h.2 "stored"⟩

end PdfBackend
